import Mathlib

/-!
Shallow embedding of `c10/util/tempfile.h` (temporary-file and
temporary-directory RAII utilities) and proofs about it.

Filesystem effects are made explicit: every OS-touching operation takes and
returns a `FileSystem` value. OS primitives (`mkstemp`, `mkdtemp`,
`tmpnam_s`, `CreateDirectory`) are modelled as oracles supplied in an
`PosixOS` / `WinOS` record; the guarantees the C library documents for them
(for example, that `mkstemp` returns a name that did not previously exist)
appear as hypotheses on those oracles where a claim needs them.
-/

set_option maxHeartbeats 1000000

/-- Model of the relevant filesystem state: the set of existing regular
files, the set of existing directories, and the set of open file
descriptors, each as a list of distinct entries. -/
structure FileSystem where
  files : List String
  dirs : List String
  fds : List Int
  deriving DecidableEq

/-- Model of `std::filesystem::remove(p)`: the entry at path `p` (a regular
file or an empty directory) no longer exists afterwards. -/
def FileSystem.removePath (fs : FileSystem) (p : String) : FileSystem :=
  { fs with
    files := fs.files.filter (fun q => q ≠ p)
    dirs := fs.dirs.filter (fun q => q ≠ p) }

/-- Model of POSIX `close(fd)`: the descriptor is no longer open. -/
def FileSystem.closeFd (fs : FileSystem) (fd : Int) : FileSystem :=
  { fs with fds := fs.fds.filter (fun g => g ≠ fd) }

/-- Embedding of `c10::TempFile`: an open-descriptor field (`-1` when no
descriptor is held) and the owned path (empty when nothing is owned). -/
structure TempFile where
  fd : Int
  name : String
  deriving DecidableEq

/-- Embedding of the public constructor
`TempFile(const std::filesystem::path& name, int fd = -1)`. -/
def TempFile.ofPath (p : String) (fd : Int := -1) : TempFile :=
  { fd := fd, name := p }

/-- Embedding of `TempFile::~TempFile` (the POSIX build): when the stored
name is non-empty, call `std::filesystem::remove(name)` and then, when
`fd >= 0`, `close(fd)`; when the name is empty, do nothing at all. -/
def TempFile.destructor (t : TempFile) (fs : FileSystem) : FileSystem :=
  if t.name = "" then fs
  else
    let fs1 := fs.removePath t.name
    if t.fd ≥ 0 then fs1.closeFd t.fd else fs1

/-- Embedding of `TempFile(TempFile&& other)`: the destination takes
`other`'s descriptor and name; `other.fd` is set to `-1` and `other.name`
is left empty (the state `std::string` move construction leaves on the
mainstream library implementations). Returns (destination, moved-from
source). -/
def TempFile.moveConstruct (other : TempFile) : TempFile × TempFile :=
  ({ fd := other.fd, name := other.name }, { fd := -1, name := "" })

/-- Embedding of `TempFile::operator=(TempFile&& other)`: the destination's
fields are overwritten with `other`'s, `other.fd` becomes `-1` and
`other.name.clear()` empties the source's name. Returns (destination,
moved-from source). -/
def TempFile.moveAssign (_dest other : TempFile) : TempFile × TempFile :=
  ({ fd := other.fd, name := other.name }, { fd := -1, name := "" })

/-- Embedding of `c10::TempDir`: the owned directory path (empty when
nothing is owned). -/
structure TempDir where
  name : String
  deriving DecidableEq

/-- Embedding of `TempDir::~TempDir`: when the stored name is non-empty,
call `std::filesystem::remove(name)`; otherwise do nothing. -/
def TempDir.destructor (d : TempDir) (fs : FileSystem) : FileSystem :=
  if d.name = "" then fs else fs.removePath d.name

/-- Embedding of `TempDir(TempDir&& other)`: the destination takes the
name and `other.name.clear()` empties the source. -/
def TempDir.moveConstruct (other : TempDir) : TempDir × TempDir :=
  ({ name := other.name }, { name := "" })

/-- Embedding of `TempDir::operator=(TempDir&& other)`: the destination's
name is overwritten and the source's name is cleared. -/
def TempDir.moveAssign (_dest other : TempDir) : TempDir × TempDir :=
  ({ name := other.name }, { name := "" })

/-- Whether a path string begins with the separator `'/'` — on POSIX this
is `std::filesystem::path::is_absolute()`. -/
def strStartsSlash (s : String) : Bool :=
  match s.data with
  | [] => false
  | c :: _ => c = '/'

/-- Whether a path string ends with the separator `'/'` — on POSIX a path
whose native string ends in a separator has no filename component. -/
def strEndsSlash (s : String) : Bool :=
  match s.data.getLast? with
  | some c => c = '/'
  | none => false

/-- Embedding of `std::filesystem::path::operator/=` on POSIX: an absolute
right operand replaces the left; otherwise the preferred separator is
inserted exactly when the left operand is non-empty and does not already
end in a separator. -/
def pathAppend (base p : String) : String :=
  if strStartsSlash p then p
  else if base = "" then base ++ p
  else if strEndsSlash base then base ++ p
  else base ++ "/" ++ p

/-- Embedding of the environment scan in `detail::make_filename`: the value
of the first of `TMPDIR`, `TMP`, `TEMP`, `TEMPDIR` that is set (even when
set to the empty string), defaulting to `"/tmp"`. `env v` is `getenv(v)`:
`none` when the variable is unset. -/
def tmpDirectory (env : String → Option String) : String :=
  match env "TMPDIR" with
  | some p => p
  | none =>
    match env "TMP" with
    | some p => p
    | none =>
      match env "TEMP" with
      | some p => p
      | none =>
        match env "TEMPDIR" with
        | some p => p
        | none => "/tmp"

/-- Embedding of `detail::make_filename(name_prefix)` (the POSIX build):
path-append the caller's name onto the selected temp directory and append
the six-`X` pattern `mkstemp`/`mkdtemp` require. -/
def make_filename (env : String → Option String) (pfx : String) : String :=
  pathAppend (tmpDirectory env) pfx ++ "XXXXXX"

/-- Oracle for the POSIX build's OS calls. `mkstempSpec pat fs` is the
outcome of `mkstemp` on pattern `pat` in filesystem state `fs`: `none` for
failure (returned descriptor `-1`), or `some (nm, fd)` where `nm` is the
buffer's final contents (the pattern with its six trailing placeholders
overwritten) and `fd` the new open descriptor. `mkdtempSpec` is the
analogue for `mkdtemp`. `strerror` is `std::strerror(errno)` at the moment
of failure. -/
structure PosixOS where
  env : String → Option String
  mkstempSpec : String → FileSystem → Option (String × Int)
  mkdtempSpec : String → FileSystem → Option String
  strerror : String

/-- Embedding of `c10::try_make_tempfile` (POSIX build): build the pattern,
return `nullopt` if it is empty, otherwise call `mkstemp`, which on success
atomically creates-and-opens the file (the new regular file and the new
open descriptor enter the filesystem state in the same step) — on failure
the state is untouched. -/
def try_make_tempfile_posix (os : PosixOS) (pfx : String)
    (fs : FileSystem) : Option TempFile × FileSystem :=
  let filename := make_filename os.env pfx
  if filename = "" then (none, fs)
  else
    match os.mkstempSpec filename fs with
    | none => (none, fs)
    | some (nm, fd) =>
      (some { fd := fd, name := nm },
       { fs with files := nm :: fs.files, fds := fd :: fs.fds })

/-- Embedding of `c10::make_tempfile` (POSIX build): on an empty result
from `try_make_tempfile` raise the fatal `TORCH_CHECK` error whose message
appends `std::strerror(errno)`; otherwise hand the owned value out. -/
def make_tempfile_posix (os : PosixOS) (pfx : String)
    (fs : FileSystem) : Except String TempFile × FileSystem :=
  match try_make_tempfile_posix os pfx fs with
  | (some t, fs') => (Except.ok t, fs')
  | (none, fs') =>
    (Except.error ("Error generating temporary file: " ++ os.strerror), fs')

/-- Embedding of `c10::try_make_tempdir` (POSIX build): build the pattern
and call `mkdtemp`, which atomically picks a fresh suffix and creates the
directory; `nullopt` exactly when `mkdtemp` returns a null pointer. -/
def try_make_tempdir_posix (os : PosixOS) (pfx : String)
    (fs : FileSystem) : Option TempDir × FileSystem :=
  let filename := make_filename os.env pfx
  match os.mkdtempSpec filename fs with
  | none => (none, fs)
  | some nm => (some { name := nm }, { fs with dirs := nm :: fs.dirs })

/-- Embedding of `c10::make_tempdir` (POSIX build): fatal error carrying
`std::strerror(errno)` on an empty result, otherwise the owned value. -/
def make_tempdir_posix (os : PosixOS) (pfx : String)
    (fs : FileSystem) : Except String TempDir × FileSystem :=
  match try_make_tempdir_posix os pfx fs with
  | (some d, fs') => (Except.ok d, fs')
  | (none, fs') =>
    (Except.error ("Error generating temporary directory: " ++ os.strerror), fs')

/-- Outcome of one `std::filesystem::create_directories` attempt in the
Windows build: created, failed with `GetLastError() == ERROR_ALREADY_EXISTS`,
or failed with any other error code. -/
inductive CreateDirResult where
  | created
  | alreadyExists
  | otherError
  deriving DecidableEq

/-- Oracle for the Windows build's OS calls. `tmpnamRes k` is the outcome
of the `k`-th `tmpnam_s` call of the function under consideration (`none`
for a non-zero return), and `createDir nm` the outcome of attempting to
create directory `nm`. -/
structure WinOS where
  tmpnamRes : Nat → Option String
  createDir : String → CreateDirResult

/-- Embedding of `detail::make_filename()` (Windows build): the name
produced by the `call`-th `tmpnam_s` invocation, or the empty string (after
a warning) when `tmpnam_s` reports an error. -/
def make_filename_win (os : WinOS) (call : Nat) : String :=
  match os.tmpnamRes call with
  | none => ""
  | some nm => nm

/-- Embedding of `c10::try_make_tempfile` (Windows build): one `tmpnam_s`
name; `nullopt` when it is empty, otherwise a `TempFile` with the default
descriptor `-1` (no file is opened on this path). -/
def try_make_tempfile_win (os : WinOS) : Option TempFile :=
  let filename := make_filename_win os 0
  if filename = "" then none
  else some { fd := -1, name := filename }

/-- The Windows `try_make_tempdir` retry loop, with the attempt counter `i`
(which indexes `tmpnam_s` calls) and the remaining iteration budget as
explicit arguments: an empty generated name or a creation error other than
"already exists" ends the loop with `none`, a successful creation returns
the owning value, "already exists" moves to the next attempt, and a spent
budget yields `none`. -/
def tempdirLoopWin (os : WinOS) : Nat → Nat → Option TempDir
  | _, 0 => none
  | i, fuel + 1 =>
    let dirname := make_filename_win os i
    if dirname = "" then none
    else
      match os.createDir dirname with
      | CreateDirResult.created => some { name := dirname }
      | CreateDirResult.alreadyExists => tempdirLoopWin os (i + 1) fuel
      | CreateDirResult.otherError => none

/-- Embedding of `c10::try_make_tempdir` (Windows build): the retry loop
run with its bound of 100 attempts. -/
def try_make_tempdir_win (os : WinOS) : Option TempDir :=
  tempdirLoopWin os 0 100

/-- The part of a character list after its last `'/'` (the whole list when
it has no `'/'`). -/
def finalCompList (l : List Char) : List Char :=
  (l.reverse.takeWhile (fun c => c ≠ '/')).reverse

/-- The final path component of a path string: everything after the last
separator. -/
def finalComponent (s : String) : String :=
  ⟨finalCompList s.data⟩

/-- A run of `n` back-to-back `try_make_tempfile` calls threading the
filesystem state, with every returned owning value kept alive (no
destructor runs in between); returns the list of created names and the
final state, stopping early if a call fails. -/
def seqTempfiles (os : PosixOS) (pfx : String) : FileSystem → Nat → List String × FileSystem
  | fs, 0 => ([], fs)
  | fs, n + 1 =>
    match try_make_tempfile_posix os pfx fs with
    | (some t, fs') =>
      let r := seqTempfiles os pfx fs' n
      (t.name :: r.1, r.2)
    | (none, fs') => ([], fs')

/-- A name strictly longer than every file name in `fs`, hence fresh: used
to build a concrete oracle satisfying the `mkstemp` freshness contract. -/
def freshName (fs : FileSystem) : String :=
  ⟨List.replicate ((fs.files.map String.length).sum + 1) 'a'⟩

/-- A concrete POSIX oracle on which every creation call succeeds and
returns a name not currently in the filesystem. -/
def wPosixOS : PosixOS where
  env := fun _ => none
  mkstempSpec := fun _ fs => some (freshName fs, 0)
  mkdtempSpec := fun _ fs => some (freshName fs)
  strerror := "No such file or directory"

/-- A concrete POSIX oracle on which every creation call fails. -/
def wPosixFail : PosixOS where
  env := fun _ => none
  mkstempSpec := fun _ _ => none
  mkdtempSpec := fun _ _ => none
  strerror := "Permission denied"

/-- A concrete POSIX oracle whose `mkstemp` fills the six placeholders of
the pattern `/tmp/pXXXXXX` with `ABCDEF`. -/
def wPosixC2 : PosixOS where
  env := fun _ => none
  mkstempSpec := fun _ _ => some ("/tmp/pABCDEF", 3)
  mkdtempSpec := fun _ _ => none
  strerror := "Permission denied"

/-- A concrete Windows oracle on which every name is generated and every
creation attempt succeeds. -/
def wWinOS : WinOS where
  tmpnamRes := fun _ => some "C:d"
  createDir := fun _ => CreateDirResult.created

/-- A concrete Windows oracle on which every creation attempt fails with
"already exists". -/
def wWinBusy : WinOS where
  tmpnamRes := fun _ => some "C:d"
  createDir := fun _ => CreateDirResult.alreadyExists

/-- An environment with `TMPDIR` set to the empty string and everything
else unset. -/
def envEmptyTmpdir : String → Option String :=
  fun v => if v = "TMPDIR" then some "" else none

/-- An environment with nothing set. -/
def envUnset : String → Option String := fun _ => none

/-- The empty filesystem. -/
def fsEmpty : FileSystem := ⟨[], [], []⟩

/-! ## Helper lemmas -/

theorem strDataAppend (a b : String) : (a ++ b).data = a.data ++ b.data := rfl

theorem make_filename_ne_empty (env : String → Option String) (pfx : String) :
    make_filename env pfx ≠ "" := by
  intro h
  have h2 := congrArg String.data h
  rw [make_filename, strDataAppend] at h2
  simp at h2

theorem strStartsSlash_false_of (p : String) (hp : ∀ c ∈ p.data, c ≠ '/') :
    strStartsSlash p = false := by
  unfold strStartsSlash
  cases h : p.data with
  | nil => rfl
  | cons c l =>
    have hc : c ≠ '/' := hp c (by rw [h]; exact List.mem_cons_self c l)
    simp [hc]

theorem takeWhileAppendAll {α : Type} (p : α → Bool) :
    ∀ (l1 l2 : List α), (∀ a ∈ l1, p a = true) →
      (l1 ++ l2).takeWhile p = l1 ++ l2.takeWhile p := by
  intro l1
  induction l1 with
  | nil => intro l2 _; simp
  | cons a l ih =>
    intro l2 h
    have ha : p a = true := h a (List.mem_cons_self a l)
    simp only [List.cons_append, List.takeWhile_cons, ha, if_true]
    rw [ih l2 (fun x hx => h x (List.mem_cons_of_mem a hx))]

theorem finalCompList_infix_of (B p s : List Char)
    (hp : ∀ c ∈ p, c ≠ '/') (hs : ∀ c ∈ s, c ≠ '/') :
    p <:+: finalCompList (B ++ p ++ s) := by
  unfold finalCompList
  have hrev : (B ++ p ++ s).reverse = s.reverse ++ (p.reverse ++ B.reverse) := by
    simp [List.reverse_append]
  rw [hrev]
  rw [takeWhileAppendAll _ (s.reverse) _ (by
    intro a ha
    rw [List.mem_reverse] at ha
    simp [hs a ha])]
  rw [takeWhileAppendAll _ (p.reverse) _ (by
    intro a ha
    rw [List.mem_reverse] at ha
    simp [hp a ha])]
  refine ⟨(B.reverse.takeWhile (fun c => decide (c ≠ '/'))).reverse, s, ?_⟩
  simp [List.reverse_append]

theorem pathAppend_data_eq (base p : String) (h : strStartsSlash p = false) :
    ∃ B, (pathAppend base p).data = B ++ p.data := by
  unfold pathAppend
  rw [h]
  simp only [Bool.false_eq_true, if_false]
  by_cases h1 : base = ""
  · rw [if_pos h1]
    exact ⟨base.data, strDataAppend base p⟩
  · rw [if_neg h1]
    by_cases h2 : strEndsSlash base
    · rw [if_pos h2]
      exact ⟨base.data, strDataAppend base p⟩
    · rw [if_neg h2]
      refine ⟨base.data ++ "/".data, ?_⟩
      rw [strDataAppend, strDataAppend]

theorem destructor_file_not_mem (t : TempFile) (fs : FileSystem) (h : t.name ≠ "") :
    t.name ∉ (t.destructor fs).files ∧ t.name ∉ (t.destructor fs).dirs ∧
      (t.fd ≥ 0 → t.fd ∉ (t.destructor fs).fds) := by
  unfold TempFile.destructor
  rw [if_neg h]
  by_cases hfd : t.fd ≥ 0
  · rw [if_pos hfd]
    refine ⟨?_, ?_, fun _ => ?_⟩ <;>
      simp [FileSystem.removePath, FileSystem.closeFd, List.mem_filter]
  · rw [if_neg hfd]
    refine ⟨?_, ?_, fun hc => absurd hc hfd⟩ <;>
      simp [FileSystem.removePath, List.mem_filter]

theorem destructor_dir_not_mem (d : TempDir) (fs : FileSystem) (h : d.name ≠ "") :
    d.name ∉ (d.destructor fs).dirs ∧ d.name ∉ (d.destructor fs).files := by
  unfold TempDir.destructor
  rw [if_neg h]
  constructor <;> simp [FileSystem.removePath, List.mem_filter]

theorem tempdirLoopWin_step_empty (os : WinOS) (i fuel : Nat)
    (h : make_filename_win os i = "") :
    tempdirLoopWin os i (fuel + 1) = none := by
  simp [tempdirLoopWin, h]

theorem tempdirLoopWin_step_other (os : WinOS) (i fuel : Nat)
    (h1 : make_filename_win os i ≠ "")
    (h2 : os.createDir (make_filename_win os i) = CreateDirResult.otherError) :
    tempdirLoopWin os i (fuel + 1) = none := by
  simp [tempdirLoopWin, h1, h2]

theorem tempdirLoopWin_step_created (os : WinOS) (i fuel : Nat)
    (h1 : make_filename_win os i ≠ "")
    (h2 : os.createDir (make_filename_win os i) = CreateDirResult.created) :
    tempdirLoopWin os i (fuel + 1) = some { name := make_filename_win os i } := by
  simp [tempdirLoopWin, h1, h2]

theorem tempdirLoopWin_step_retry (os : WinOS) (i fuel : Nat)
    (h1 : make_filename_win os i ≠ "")
    (h2 : os.createDir (make_filename_win os i) = CreateDirResult.alreadyExists) :
    tempdirLoopWin os i (fuel + 1) = tempdirLoopWin os (i + 1) fuel := by
  simp [tempdirLoopWin, h1, h2]

theorem tempdirLoopWin_exhaust (os : WinOS) :
    ∀ (fuel i : Nat),
      (∀ j, j < fuel → make_filename_win os (i + j) ≠ "" ∧
        os.createDir (make_filename_win os (i + j)) = CreateDirResult.alreadyExists) →
      tempdirLoopWin os i fuel = none := by
  intro fuel
  induction fuel with
  | zero => intro i _; rfl
  | succ f ih =>
    intro i h
    have h0 := h 0 (Nat.succ_pos f)
    rw [Nat.add_zero] at h0
    rw [tempdirLoopWin_step_retry os i f h0.1 h0.2]
    refine ih (i + 1) (fun j hj => ?_)
    have h1 := h (j + 1) (Nat.succ_lt_succ hj)
    have h2 : i + 1 + j = i + (j + 1) := by omega
    rw [h2]
    exact h1

theorem freshName_not_mem (fs : FileSystem) : freshName fs ∉ fs.files := by
  intro h
  have h1 : (freshName fs).length ≤ (fs.files.map String.length).sum :=
    List.single_le_sum (fun x _ => Nat.zero_le x) _
      (List.mem_map_of_mem String.length h)
  have h2 : (freshName fs).length = (fs.files.map String.length).sum + 1 := by
    simp [freshName, String.length]
  omega

/-! ## Claim theorems -/

/-- C1: for every `TempFile` (resp. `TempDir`) whose name is non-empty at
destruction, the destructor removes the owned file (resp. directory) from
the filesystem — and for `TempFile` on POSIX additionally closes the
descriptor when `fd >= 0` — so after the owning value goes out of scope the
file/directory it owned no longer exists. -/
theorem C1_destructor_removes (t : TempFile) (d : TempDir) (fs gs : FileSystem)
    (ht : t.name ≠ "") (hd : d.name ≠ "") :
    (t.name ∉ (t.destructor fs).files ∧ t.name ∉ (t.destructor fs).dirs ∧
      (t.fd ≥ 0 → t.fd ∉ (t.destructor fs).fds)) ∧
    (d.name ∉ (d.destructor gs).dirs ∧ d.name ∉ (d.destructor gs).files) :=
  ⟨destructor_file_not_mem t fs ht, destructor_dir_not_mem d gs hd⟩

/-- Witness for C1 at a concrete file, directory and filesystem. -/
theorem C1_witness :
    "f" ∉ ((TempFile.ofPath "f" 3).destructor ⟨["f"], ["g"], [3]⟩).files ∧
    (3 : Int) ∉ ((TempFile.ofPath "f" 3).destructor ⟨["f"], ["g"], [3]⟩).fds ∧
    "g" ∉ ((TempDir.mk "g").destructor ⟨["f"], ["g"], [3]⟩).dirs := by
  have h := C1_destructor_removes (TempFile.ofPath "f" 3) (TempDir.mk "g")
    ⟨["f"], ["g"], [3]⟩ ⟨["f"], ["g"], [3]⟩ (by decide) (by decide)
  exact ⟨h.1.1, h.1.2.2 (by decide), h.2.1⟩

/-- C10: a `TempFile` whose name is empty does nothing at destruction: no
filesystem removal and no `close`, even when `fd >= 0`, so a descriptor held
by an empty-named `TempFile` built with the public constructor is never
closed by the destructor. -/
theorem C10_empty_name_destructor_noop (t : TempFile) (fd : Int) (fs : FileSystem)
    (h : t.name = "") (_hfd : fd ≥ 0) :
    t.destructor fs = fs ∧
    (TempFile.ofPath "" fd).destructor fs = fs ∧
    ((TempFile.ofPath "" fd).destructor fs).fds = fs.fds := by
  refine ⟨?_, ?_, ?_⟩ <;> simp [TempFile.destructor, TempFile.ofPath, h]

/-- Witness for C10: an empty-named `TempFile` holding descriptor 5 leaves
a concrete filesystem (including the open-descriptor table) untouched. -/
theorem C10_witness :
    (TempFile.mk 5 "").destructor ⟨["f"], [], [5]⟩ = ⟨["f"], [], [5]⟩ ∧
    ((TempFile.ofPath "" 5).destructor ⟨["f"], [], [5]⟩).fds = [5] := by
  have h := C10_empty_name_destructor_noop (TempFile.mk 5 "") 5
    ⟨["f"], [], [5]⟩ (by decide) (by decide)
  exact ⟨h.1, by rw [h.2.2]⟩

/-- C4: move construction and move assignment of `TempFile`/`TempDir`
transfer ownership: the moved-from value ends in the empty non-owning state
(empty name, and `fd = -1` for `TempFile`), so destroying it performs no
filesystem change, while the destination holds exactly the original fields
and destroying it removes the resource. -/
theorem C4_move_transfers (t u : TempFile) (d e : TempDir) (fs : FileSystem) :
    ((TempFile.moveConstruct t).2.name = "" ∧ (TempFile.moveConstruct t).2.fd = -1 ∧
      (TempFile.moveConstruct t).2.destructor fs = fs ∧
      (TempFile.moveConstruct t).1 = t ∧
      (t.name ≠ "" → t.name ∉ ((TempFile.moveConstruct t).1.destructor fs).files)) ∧
    ((TempFile.moveAssign u t).2.name = "" ∧ (TempFile.moveAssign u t).2.fd = -1 ∧
      (TempFile.moveAssign u t).2.destructor fs = fs ∧
      (TempFile.moveAssign u t).1 = t ∧
      (t.name ≠ "" → t.name ∉ ((TempFile.moveAssign u t).1.destructor fs).files)) ∧
    ((TempDir.moveConstruct d).2.name = "" ∧
      (TempDir.moveConstruct d).2.destructor fs = fs ∧
      (TempDir.moveConstruct d).1 = d ∧
      (d.name ≠ "" → d.name ∉ ((TempDir.moveConstruct d).1.destructor fs).dirs)) ∧
    ((TempDir.moveAssign e d).2.name = "" ∧
      (TempDir.moveAssign e d).2.destructor fs = fs ∧
      (TempDir.moveAssign e d).1 = d ∧
      (d.name ≠ "" → d.name ∉ ((TempDir.moveAssign e d).1.destructor fs).dirs)) := by
  refine ⟨⟨rfl, rfl, ?_, rfl, fun h => ?_⟩, ⟨rfl, rfl, ?_, rfl, fun h => ?_⟩,
    ⟨rfl, ?_, rfl, fun h => ?_⟩, ⟨rfl, ?_, rfl, fun h => ?_⟩⟩
  · simp [TempFile.moveConstruct, TempFile.destructor]
  · exact (destructor_file_not_mem t fs h).1
  · simp [TempFile.moveAssign, TempFile.destructor]
  · exact (destructor_file_not_mem t fs h).1
  · simp [TempDir.moveConstruct, TempDir.destructor]
  · exact (destructor_dir_not_mem d fs h).1
  · simp [TempDir.moveAssign, TempDir.destructor]
  · exact (destructor_dir_not_mem d fs h).1

/-- Witness for C4 at concrete values: moving out of a `TempFile` owning
"f" leaves a source whose destruction changes nothing, while destroying the
destination removes "f". -/
theorem C4_witness :
    (TempFile.moveConstruct (TempFile.mk 3 "f")).2.name = "" ∧
    (TempFile.moveConstruct (TempFile.mk 3 "f")).2.destructor ⟨["f"], [], [3]⟩ =
      ⟨["f"], [], [3]⟩ ∧
    "f" ∉ ((TempFile.moveConstruct (TempFile.mk 3 "f")).1.destructor
      ⟨["f"], [], [3]⟩).files ∧
    (TempDir.moveAssign (TempDir.mk "x") (TempDir.mk "g")).2.name = "" ∧
    "g" ∉ ((TempDir.moveAssign (TempDir.mk "x") (TempDir.mk "g")).1.destructor
      ⟨[], ["g"], []⟩).dirs := by
  have h := C4_move_transfers (TempFile.mk 3 "f") (TempFile.mk 0 "u")
    (TempDir.mk "g") (TempDir.mk "x") ⟨["f"], [], [3]⟩
  have h2 := C4_move_transfers (TempFile.mk 3 "f") (TempFile.mk 0 "u")
    (TempDir.mk "g") (TempDir.mk "x") ⟨[], ["g"], []⟩
  exact ⟨h.1.1, h.1.2.2.1, h.1.2.2.2.2 (by decide), h2.2.2.2.1,
    h2.2.2.2.2.2.2 (by decide)⟩

/-- C3: `make_tempfile` (resp. `make_tempdir`) produces the fatal error —
whose message embeds the OS error description — exactly when
`try_make_tempfile` (resp. `try_make_tempdir`) returns the empty result,
and on a non-empty result returns the contained owning value unchanged. -/
theorem C3_fatal_wrappers (os : PosixOS) (pfx : String) (fs : FileSystem) :
    (((try_make_tempfile_posix os pfx fs).1 = none ↔
        (make_tempfile_posix os pfx fs).1 =
          Except.error ("Error generating temporary file: " ++ os.strerror)) ∧
      (∀ t, (try_make_tempfile_posix os pfx fs).1 = some t →
        (make_tempfile_posix os pfx fs).1 = Except.ok t) ∧
      (∀ msg, (make_tempfile_posix os pfx fs).1 = Except.error msg →
        os.strerror.data <:+: msg.data)) ∧
    (((try_make_tempdir_posix os pfx fs).1 = none ↔
        (make_tempdir_posix os pfx fs).1 =
          Except.error ("Error generating temporary directory: " ++ os.strerror)) ∧
      (∀ d, (try_make_tempdir_posix os pfx fs).1 = some d →
        (make_tempdir_posix os pfx fs).1 = Except.ok d) ∧
      (∀ msg, (make_tempdir_posix os pfx fs).1 = Except.error msg →
        os.strerror.data <:+: msg.data)) := by
  constructor
  · cases hf : try_make_tempfile_posix os pfx fs with
    | mk o fs' =>
      cases o with
      | none =>
        refine ⟨⟨fun _ => ?_, fun _ => rfl⟩, fun t ht => ?_, fun msg hmsg => ?_⟩
        · simp [make_tempfile_posix, hf]
        · simp [hf] at ht
        · simp [make_tempfile_posix, hf] at hmsg
          rw [← hmsg, strDataAppend]
          exact (List.suffix_append _ _).isInfix
      | some t =>
        refine ⟨⟨fun hc => ?_, fun hc => ?_⟩, fun t' ht' => ?_, fun msg hmsg => ?_⟩
        · simp [hf] at hc
        · simp [make_tempfile_posix, hf] at hc
        · simp [hf] at ht'
          rw [← ht']
          simp [make_tempfile_posix, hf]
        · simp [make_tempfile_posix, hf] at hmsg
  · cases hf : try_make_tempdir_posix os pfx fs with
    | mk o fs' =>
      cases o with
      | none =>
        refine ⟨⟨fun _ => ?_, fun _ => rfl⟩, fun d hd => ?_, fun msg hmsg => ?_⟩
        · simp [make_tempdir_posix, hf]
        · simp [hf] at hd
        · simp [make_tempdir_posix, hf] at hmsg
          rw [← hmsg, strDataAppend]
          exact (List.suffix_append _ _).isInfix
      | some d =>
        refine ⟨⟨fun hc => ?_, fun hc => ?_⟩, fun d' hd' => ?_, fun msg hmsg => ?_⟩
        · simp [hf] at hc
        · simp [make_tempdir_posix, hf] at hc
        · simp [hf] at hd'
          rw [← hd']
          simp [make_tempdir_posix, hf]
        · simp [make_tempdir_posix, hf] at hmsg

/-- Witness for C3: on an oracle whose creation calls always fail, both
fatal factories report the error message carrying the OS description. -/
theorem C3_witness :
    (make_tempfile_posix wPosixFail "p" fsEmpty).1 =
      Except.error ("Error generating temporary file: " ++ wPosixFail.strerror) ∧
    (make_tempdir_posix wPosixFail "p" fsEmpty).1 =
      Except.error ("Error generating temporary directory: " ++ wPosixFail.strerror) := by
  have h := C3_fatal_wrappers wPosixFail "p" fsEmpty
  exact ⟨h.1.1.mp (by decide), h.2.1.mp (by decide)⟩

/-- C5: the fallible factories cannot raise (their embedding is total, with
an `Option` result), and every failure mode — empty generated name, OS
creation-call failure, non-retryable creation error, exhaustion of the
100-attempt bound — collapses to the same `none` sentinel. -/
theorem C5_try_collapse_failures (os : PosixOS) (pfx : String) (fs : FileSystem)
    (wos : WinOS) :
    (os.mkstempSpec (make_filename os.env pfx) fs = none →
      (try_make_tempfile_posix os pfx fs).1 = none) ∧
    (os.mkdtempSpec (make_filename os.env pfx) fs = none →
      (try_make_tempdir_posix os pfx fs).1 = none) ∧
    (make_filename_win wos 0 = "" → try_make_tempfile_win wos = none) ∧
    (make_filename_win wos 0 = "" → try_make_tempdir_win wos = none) ∧
    (make_filename_win wos 0 ≠ "" →
      wos.createDir (make_filename_win wos 0) = CreateDirResult.otherError →
      try_make_tempdir_win wos = none) ∧
    ((∀ j, j < 100 → make_filename_win wos j ≠ "" ∧
        wos.createDir (make_filename_win wos j) = CreateDirResult.alreadyExists) →
      try_make_tempdir_win wos = none) := by
  refine ⟨fun h => ?_, fun h => ?_, fun h => ?_, fun h => ?_,
    fun h1 h2 => ?_, fun h => ?_⟩
  · by_cases he : make_filename os.env pfx = "" <;>
      simp [try_make_tempfile_posix, he, h]
  · simp [try_make_tempdir_posix, h]
  · simp [try_make_tempfile_win, h]
  · show tempdirLoopWin wos 0 (99 + 1) = none
    exact tempdirLoopWin_step_empty wos 0 99 h
  · show tempdirLoopWin wos 0 (99 + 1) = none
    exact tempdirLoopWin_step_other wos 0 99 h1 h2
  · show tempdirLoopWin wos 0 100 = none
    refine tempdirLoopWin_exhaust wos 100 0 (fun j hj => ?_)
    rw [Nat.zero_add]
    exact h j hj

/-- Witness for C5: concrete failing oracles on both platforms yield the
empty result. -/
theorem C5_witness :
    (try_make_tempfile_posix wPosixFail "p" fsEmpty).1 = none ∧
    (try_make_tempdir_posix wPosixFail "p" fsEmpty).1 = none ∧
    try_make_tempdir_win wWinBusy = none := by
  have h := C5_try_collapse_failures wPosixFail "p" fsEmpty wWinBusy
  exact ⟨h.1 rfl, h.2.1 rfl,
    h.2.2.2.2.2 (fun j _ => ⟨by simp [make_filename_win, wWinBusy], rfl⟩)⟩

/-- C8: `try_make_tempfile` is atomic with respect to failure: an empty
result leaves the filesystem exactly as it was, and on success the single
new regular file is the one named by the returned value. -/
theorem C8_failure_leaves_fs (os : PosixOS) (pfx : String) (fs : FileSystem) :
    ((try_make_tempfile_posix os pfx fs).1 = none →
      (try_make_tempfile_posix os pfx fs).2 = fs) ∧
    (∀ t, (try_make_tempfile_posix os pfx fs).1 = some t →
      (try_make_tempfile_posix os pfx fs).2.files = t.name :: fs.files) := by
  by_cases he : make_filename os.env pfx = ""
  · constructor
    · intro _; simp [try_make_tempfile_posix, he]
    · intro t ht; simp [try_make_tempfile_posix, he] at ht
  · cases hs : os.mkstempSpec (make_filename os.env pfx) fs with
    | none =>
      constructor
      · intro _; simp [try_make_tempfile_posix, he, hs]
      · intro t ht; simp [try_make_tempfile_posix, he, hs] at ht
    | some pr =>
      obtain ⟨nm, fd⟩ := pr
      constructor
      · intro hc; simp [try_make_tempfile_posix, he, hs] at hc
      · intro t ht
        simp [try_make_tempfile_posix, he, hs] at ht ⊢
        rw [← ht]

/-- C6 counterexample: the claimed literal pattern
`<base-dir>/<prefix>XXXXXX` is wrong in three concrete situations the claim
covers — the first set variable holding the empty string (no separator is
inserted), a base directory already ending in `'/'` (no second separator is
inserted), and an absolute prefix (which discards the base directory
entirely). -/
theorem C6_counterexample :
    (make_filename envEmptyTmpdir "a" ≠
      tmpDirectory envEmptyTmpdir ++ "/" ++ "a" ++ "XXXXXX") ∧
    (make_filename (fun v => if v = "TMP" then some "/var/tmp/" else none) "p" ≠
      tmpDirectory (fun v => if v = "TMP" then some "/var/tmp/" else none) ++
        "/" ++ "p" ++ "XXXXXX") ∧
    (make_filename envUnset "/abs" ≠
      tmpDirectory envUnset ++ "/" ++ "/abs" ++ "XXXXXX") := by
  refine ⟨by decide, by decide, by decide⟩

/-- C6 as amended: the base directory is the value of the first set
variable among `TMPDIR`, `TMP`, `TEMP`, `TEMPDIR` (even when set to the
empty string), defaulting to `"/tmp"`, and the synthesized pattern is the
filesystem path-append of base and name followed by exactly six `'X'`
placeholders; this equals the literal `<base-dir>/<prefix>XXXXXX` whenever
the base directory is non-empty and does not already end in a separator and
the caller's name is not absolute. -/
theorem C6_amended_pattern (env : String → Option String) (pfx : String)
    (h1 : tmpDirectory env ≠ "")
    (h2 : strEndsSlash (tmpDirectory env) = false)
    (h3 : strStartsSlash pfx = false) :
    make_filename env pfx = tmpDirectory env ++ "/" ++ pfx ++ "XXXXXX" ∧
    (∀ d, env "TMPDIR" = some d → tmpDirectory env = d) ∧
    (env "TMPDIR" = none → ∀ d, env "TMP" = some d → tmpDirectory env = d) ∧
    (env "TMPDIR" = none → env "TMP" = none → ∀ d, env "TEMP" = some d →
      tmpDirectory env = d) ∧
    (env "TMPDIR" = none → env "TMP" = none → env "TEMP" = none →
      ∀ d, env "TEMPDIR" = some d → tmpDirectory env = d) ∧
    (env "TMPDIR" = none → env "TMP" = none → env "TEMP" = none →
      env "TEMPDIR" = none → tmpDirectory env = "/tmp") := by
  refine ⟨?_, ?_, ?_, ?_, ?_, ?_⟩
  · unfold make_filename pathAppend
    rw [h3, h2]
    simp [h1]
  · intro d hd; simp [tmpDirectory, hd]
  · intro ha d hd; simp [tmpDirectory, ha, hd]
  · intro ha hb d hd; simp [tmpDirectory, ha, hb, hd]
  · intro ha hb hc d hd; simp [tmpDirectory, ha, hb, hc, hd]
  · intro ha hb hc hd; simp [tmpDirectory, ha, hb, hc, hd]

/-- Witness for the amended C6 at an environment with nothing set. -/
theorem C6_witness :
    make_filename envUnset "a" = "/tmp" ++ "/" ++ "a" ++ "XXXXXX" ∧
    tmpDirectory envUnset = "/tmp" := by
  have h := C6_amended_pattern envUnset "a" (by decide) (by decide) (by decide)
  exact ⟨h.1, h.2.2.2.2.2 rfl rfl rfl rfl⟩

/-- C7: the Windows `try_make_tempdir` runs its loop with a bound of
exactly 100 attempts; inside the loop an empty generated name or a creation
error other than "already exists" returns `none` immediately, a successful
creation returns the owning `TempDir` immediately, "already exists" falls
through to the next attempt, and exhausting all 100 attempts returns
`none`. -/
theorem C7_windows_retry_loop (os : WinOS) :
    (try_make_tempdir_win os = tempdirLoopWin os 0 100) ∧
    (∀ i fuel, make_filename_win os i = "" →
      tempdirLoopWin os i (fuel + 1) = none) ∧
    (∀ i fuel, make_filename_win os i ≠ "" →
      os.createDir (make_filename_win os i) = CreateDirResult.otherError →
      tempdirLoopWin os i (fuel + 1) = none) ∧
    (∀ i fuel, make_filename_win os i ≠ "" →
      os.createDir (make_filename_win os i) = CreateDirResult.created →
      tempdirLoopWin os i (fuel + 1) = some { name := make_filename_win os i }) ∧
    (∀ i fuel, make_filename_win os i ≠ "" →
      os.createDir (make_filename_win os i) = CreateDirResult.alreadyExists →
      tempdirLoopWin os i (fuel + 1) = tempdirLoopWin os (i + 1) fuel) ∧
    ((∀ j, j < 100 → make_filename_win os j ≠ "" ∧
        os.createDir (make_filename_win os j) = CreateDirResult.alreadyExists) →
      try_make_tempdir_win os = none) := by
  refine ⟨rfl, tempdirLoopWin_step_empty os, tempdirLoopWin_step_other os,
    tempdirLoopWin_step_created os, tempdirLoopWin_step_retry os, fun h => ?_⟩
  show tempdirLoopWin os 0 100 = none
  refine tempdirLoopWin_exhaust os 100 0 (fun j hj => ?_)
  rw [Nat.zero_add]
  exact h j hj

/-- Witness for C7: on an oracle whose first creation succeeds, the whole
function returns the owning value for the first generated name. -/
theorem C7_witness : try_make_tempdir_win wWinOS = some { name := "C:d" } := by
  have h := C7_windows_retry_loop wWinOS
  rw [h.1, show (100 : Nat) = 99 + 1 from rfl]
  exact h.2.2.2.1 0 99 (by simp [make_filename_win, wWinOS]) rfl

/-- C2: when `mkstemp` succeeds — which by its OS contract means it
atomically created-and-opened a file named by the pattern with its six
placeholders overwritten by separator-free characters — `make_tempfile`
returns that owning value, its path names a regular file present in the
resulting filesystem state, and for a separator-free caller name the
path's final component contains that name as a substring. -/
theorem C2_success_pattern (os : PosixOS) (pfx nm s : String) (fd : Int)
    (fs : FileSystem)
    (hp : ∀ c ∈ pfx.data, c ≠ '/')
    (hcall : os.mkstempSpec (make_filename os.env pfx) fs = some (nm, fd))
    (hnm : nm = pathAppend (tmpDirectory os.env) pfx ++ s)
    (_hlen : s.data.length = 6)
    (hs : ∀ c ∈ s.data, c ≠ '/') :
    (make_tempfile_posix os pfx fs).1 = Except.ok { fd := fd, name := nm } ∧
    nm ∈ (make_tempfile_posix os pfx fs).2.files ∧
    pfx.data <:+: (finalComponent nm).data := by
  have hne := make_filename_ne_empty os.env pfx
  have htry : try_make_tempfile_posix os pfx fs =
      (some { fd := fd, name := nm },
       { fs with files := nm :: fs.files, fds := fd :: fs.fds }) := by
    unfold try_make_tempfile_posix
    simp [hne, hcall]
  refine ⟨?_, ?_, ?_⟩
  · simp [make_tempfile_posix, htry]
  · simp [make_tempfile_posix, htry]
  · have hstart : strStartsSlash pfx = false := strStartsSlash_false_of pfx hp
    obtain ⟨B, hB⟩ := pathAppend_data_eq (tmpDirectory os.env) pfx hstart
    have hdata : nm.data = B ++ pfx.data ++ s.data := by
      rw [hnm, strDataAppend, hB, List.append_assoc]
    show pfx.data <:+: finalCompList nm.data
    rw [hdata]
    exact finalCompList_infix_of B pfx.data s.data hp hs

/-- Witness for C2 at a concrete oracle whose `mkstemp` completes the
pattern `/tmp/pXXXXXX` to `/tmp/pABCDEF`. -/
theorem C2_witness :
    (make_tempfile_posix wPosixC2 "p" fsEmpty).1 =
      Except.ok { fd := 3, name := "/tmp/pABCDEF" } ∧
    "/tmp/pABCDEF" ∈ (make_tempfile_posix wPosixC2 "p" fsEmpty).2.files ∧
    "p".data <:+: (finalComponent "/tmp/pABCDEF").data :=
  C2_success_pattern wPosixC2 "p" "/tmp/pABCDEF" "ABCDEF" 3 fsEmpty
    (by decide) rfl (by decide) (by decide) (by decide)

/-- Inversion for a successful `make_tempfile`: the underlying `mkstemp`
call produced exactly the returned name and descriptor, and the new state's
file list is the old one with that name in front. -/
theorem make_tempfile_ok_inv (os : PosixOS) (pfx : String) (fs fs' : FileSystem)
    (t : TempFile) (h : make_tempfile_posix os pfx fs = (Except.ok t, fs')) :
    os.mkstempSpec (make_filename os.env pfx) fs = some (t.name, t.fd) ∧
    fs'.files = t.name :: fs.files := by
  by_cases he : make_filename os.env pfx = ""
  · simp [make_tempfile_posix, try_make_tempfile_posix, he] at h
  · cases hs : os.mkstempSpec (make_filename os.env pfx) fs with
    | none => simp [make_tempfile_posix, try_make_tempfile_posix, he, hs] at h
    | some pr =>
      obtain ⟨nm, fd⟩ := pr
      simp [make_tempfile_posix, try_make_tempfile_posix, he, hs] at h
      obtain ⟨ht, hfs⟩ := h
      rw [← ht, ← hfs]
      exact ⟨rfl, rfl⟩

/-- Nodup invariant for a run of sequential `try_make_tempfile` calls under
the `mkstemp` freshness contract: the returned names are pairwise distinct
and none of them already existed in the starting state. -/
theorem seqTempfiles_nodup_aux (os : PosixOS) (pfx : String)
    (hfresh : ∀ pat fs nm fd, os.mkstempSpec pat fs = some (nm, fd) →
      nm ∉ fs.files) :
    ∀ (n : Nat) (fs : FileSystem),
      (seqTempfiles os pfx fs n).1.Nodup ∧
      ∀ x ∈ (seqTempfiles os pfx fs n).1, x ∉ fs.files := by
  intro n
  induction n with
  | zero => intro fs; simp [seqTempfiles]
  | succ n ih =>
    intro fs
    by_cases he : make_filename os.env pfx = ""
    · constructor
      · simp [seqTempfiles, try_make_tempfile_posix, he]
      · simp [seqTempfiles, try_make_tempfile_posix, he]
    · cases hs : os.mkstempSpec (make_filename os.env pfx) fs with
      | none =>
        constructor
        · simp [seqTempfiles, try_make_tempfile_posix, he, hs]
        · simp [seqTempfiles, try_make_tempfile_posix, he, hs]
      | some pr =>
        obtain ⟨nm, fd⟩ := pr
        have htry : try_make_tempfile_posix os pfx fs =
            (some { fd := fd, name := nm },
             { fs with files := nm :: fs.files, fds := fd :: fs.fds }) := by
          unfold try_make_tempfile_posix
          simp [he, hs]
        have hstep : seqTempfiles os pfx fs (n + 1) =
            (nm :: (seqTempfiles os pfx
              { fs with files := nm :: fs.files, fds := fd :: fs.fds } n).1,
             (seqTempfiles os pfx
              { fs with files := nm :: fs.files, fds := fd :: fs.fds } n).2) := by
          rw [seqTempfiles, htry]
        obtain ⟨ihnd, ihmem⟩ :=
          ih { fs with files := nm :: fs.files, fds := fd :: fs.fds }
        have hnm_fresh : nm ∉ fs.files := hfresh _ fs nm fd hs
        rw [hstep]
        constructor
        · rw [List.nodup_cons]
          refine ⟨fun hc => ?_, ihnd⟩
          have := ihmem nm hc
          simp at this
        · intro x hx
          rcases List.mem_cons.mp hx with hx1 | hx2
          · rw [hx1]; exact hnm_fresh
          · have := ihmem x hx2
            simp at this
            exact this.2

/-- C9: under the `mkstemp` contract that a created name never already
exists, a run of `n` back-to-back `try_make_tempfile` calls (all owning
values kept alive) yields pairwise-distinct paths for every `n`, and in
particular two sequential successful `make_tempfile` calls never return the
same path. -/
theorem C9_sequential_unique (os : PosixOS) (pfx : String)
    (hfresh : ∀ pat fs nm fd, os.mkstempSpec pat fs = some (nm, fd) →
      nm ∉ fs.files) :
    (∀ (n : Nat) (fs : FileSystem), (seqTempfiles os pfx fs n).1.Nodup) ∧
    (∀ (fs fs1 fs2 : FileSystem) (t1 t2 : TempFile),
      make_tempfile_posix os pfx fs = (Except.ok t1, fs1) →
      make_tempfile_posix os pfx fs1 = (Except.ok t2, fs2) →
      t1.name ≠ t2.name) := by
  constructor
  · intro n fs
    exact (seqTempfiles_nodup_aux os pfx hfresh n fs).1
  · intro fs fs1 fs2 t1 t2 h1 h2
    obtain ⟨_, hfs1⟩ := make_tempfile_ok_inv os pfx fs fs1 t1 h1
    obtain ⟨hcall2, _⟩ := make_tempfile_ok_inv os pfx fs1 fs2 t2 h2
    have hnot : t2.name ∉ fs1.files := hfresh _ fs1 t2.name t2.fd hcall2
    intro heq
    rw [hfs1] at hnot
    exact hnot (heq ▸ List.mem_cons_self t1.name fs.files)

/-- Witness for C9: on a concrete always-fresh oracle, three sequential
calls from the empty filesystem produce pairwise-distinct names. -/
theorem C9_witness : (seqTempfiles wPosixOS "p" fsEmpty 3).1.Nodup := by
  refine (C9_sequential_unique wPosixOS "p" (fun pat fs nm fd h => ?_)).1 3 fsEmpty
  have hh : nm = freshName fs := by
    have := h
    simp [wPosixOS] at this
    exact this.1.symm
  rw [hh]
  exact freshName_not_mem fs

/-- Witness for C8: a failing call leaves the concrete empty filesystem
unchanged, and a succeeding call adds exactly the returned name. -/
theorem C8_witness :
    (try_make_tempfile_posix wPosixFail "p" fsEmpty).2 = fsEmpty ∧
    (try_make_tempfile_posix wPosixOS "p" fsEmpty).2.files = ["a"] := by
  have h1 := (C8_failure_leaves_fs wPosixFail "p" fsEmpty).1 (by decide)
  have h2 := (C8_failure_leaves_fs wPosixOS "p" fsEmpty).2
    { fd := 0, name := "a" } (by decide)
  exact ⟨h1, by rw [h2]; rfl⟩
